import Mathlib

/-!
Verification development for the sensor-vision client core.

The Rust source is shallowly embedded: topics are modelled as lists of
slash-free segments (joining a segment list with `/` recovers the topic
string), machine integers as `Nat`, fallible paths as `Option`/`Except`,
and a Rust `panic!`/`unwrap` as `none`.  JSON (de)serialization is elided:
handlers take the already-parsed payload values.
-/

namespace SensorVision

/-! ## Identifiers (src/model/mod.rs)

`MqttId` wraps a `Uuid`; in topics a non-nil id renders as its 32-char
lowercase-hex "simple" form while the nil uuid renders as the wildcard `+`.
An id is modelled by its simple hex form. -/

abbrev MqttId := String
abbrev SensorId := MqttId
abbrev MetricId := MqttId

def nilMqttId : MqttId := "00000000000000000000000000000000"

/-- `From<MqttId> for String`: nil renders as `+`, otherwise the simple form. -/
def MqttId.render (id : MqttId) : String :=
  if id = nilMqttId then "+" else id

def isLowerHexDigit (c : Char) : Bool :=
  (('a' ≤ c && c ≤ 'f') || ('0' ≤ c && c ≤ '9'))

/-- The lexical class matched by the capture group of `/([a-f0-9]{32})/`. -/
def isHex32 (s : String) : Bool :=
  s.length = 32 && s.toList.all isLowerHexDigit

/-! ## Topic scheme (src/client/state/scheme.rs) -/

/-- A topic, as its list of slash-free segments. -/
abbrev Topic := List String

/-- The `:mqttid:` placeholder used in the strum templates. -/
def mqttidToken : String := ":mqttid:"

inductive MqttScheme
  | SensorList
  | SensorCreate
  | SensorUpdate (sensorId : SensorId)
  | SensorDelete (sensorId : SensorId)
  | MetricDescribe (sensorId : SensorId) (metricId : MetricId)
  | MetricCreate (sensorId : SensorId)
  | MetricUpdate (sensorId : SensorId)
  | MetricDelete (sensorId : SensorId)
  | PushValues (sensorId : SensorId)
  | Ping
deriving DecidableEq, Repr

/-- The strum `props` (path, response, error) template triple of each variant. -/
def MqttScheme.getTemplates : MqttScheme → Topic × Topic × Topic
  | .SensorList =>
    (["sensor", "list"], ["inventory", "inbox"], ["inventory", "error", "inbox"])
  | .SensorCreate =>
    (["sensor", "create"], ["sensor", "inbox"], ["sensor", "error", "inbox"])
  | .SensorUpdate _ =>
    (["sensor", mqttidToken, "update"],
     ["sensor", mqttidToken, "update", "info", "inbox"],
     ["sensor", mqttidToken, "update", "error", "inbox"])
  | .SensorDelete _ =>
    (["sensor", mqttidToken, "delete"],
     ["sensor", mqttidToken, "delete", "info", "inbox"],
     ["sensor", mqttidToken, "delete", "error", "inbox"])
  | .MetricDescribe _ _ =>
    (["sensor", mqttidToken, "metric", mqttidToken, "inventory"],
     ["sensor", mqttidToken, "metric", mqttidToken, "inventory", "inbox"],
     ["sensor", mqttidToken, "metric", mqttidToken, "inventory", "error", "inbox"])
  | .MetricCreate _ =>
    (["sensor", mqttidToken, "metric", "create"],
     ["sensor", mqttidToken, "metric", "inbox"],
     ["sensor", mqttidToken, "metric", "error", "inbox"])
  | .MetricUpdate _ =>
    (["sensor", mqttidToken, "metric", "update"],
     ["sensor", mqttidToken, "metric", "update", "info", "inbox"],
     ["sensor", mqttidToken, "metric", "update", "error", "inbox"])
  | .MetricDelete _ =>
    (["sensor", mqttidToken, "metric", "delete"],
     ["sensor", mqttidToken, "metric", "delete", "info", "inbox"],
     ["sensor", mqttidToken, "metric", "delete", "error", "inbox"])
  | .PushValues _ =>
    (["sensor", mqttidToken, "metric", "pushValues"],
     ["sensor", mqttidToken, "info", "inbox"],
     ["sensor", mqttidToken, "error", "inbox"])
  | .Ping =>
    (["ping"], ["ping", "info", "inbox"], ["ping", "error", "inbox"])

/-- One `replacen(":mqttid:", arg, 1)` step of `MqttScheme::render_topic`:
replace the first placeholder segment by the argument. -/
def replacePlaceholder : Topic → String → Topic
  | [], _ => []
  | s :: rest, arg =>
    if s = mqttidToken then arg :: rest else s :: replacePlaceholder rest arg

/-- `MqttScheme::render_topic`: substitute the arguments one by one. -/
def renderTopic (template : Topic) (args : List String) : Topic :=
  args.foldl replacePlaceholder template

/-- `MqttScheme::get_topics`: substitute the embedded ids (rendered as
strings) into the templates, in declaration order. -/
def MqttScheme.getTopics (sch : MqttScheme) : Topic × Topic × Topic :=
  let (request, response, error) := sch.getTemplates
  match sch with
  | .SensorUpdate sid | .SensorDelete sid | .MetricCreate sid
  | .MetricUpdate sid | .MetricDelete sid | .PushValues sid =>
    (renderTopic request [sid.render], renderTopic response [sid.render],
     renderTopic error [sid.render])
  | .MetricDescribe sid mid =>
    (renderTopic request [sid.render, mid.render],
     renderTopic response [sid.render, mid.render],
     renderTopic error [sid.render, mid.render])
  | _ => (request, response, error)

/-- `MqttScheme::extract_ids_and_pattern`, i.e. the non-overlapping
leftmost matches of `/([a-f0-9]{32})/` over the topic and their
replacement by `/:mqttid:/`.  On the segment list a match is a hex32
segment that has a predecessor whose trailing slash was not consumed by
an earlier match, and a successor.  `slashBefore` records whether the
slash in front of the current head is still available. -/
def extractScan : Bool → Topic → List String × Topic
  | _, [] => ([], [])
  | _, [s] => ([], [s])
  | slashBefore, s :: rest =>
    if slashBefore && isHex32 s then
      let (ids, pat) := extractScan false rest
      (s :: ids, mqttidToken :: pat)
    else
      let (ids, pat) := extractScan true rest
      (ids, s :: pat)

def extractIdsAndPattern (topic : Topic) : List String × Topic :=
  extractScan false topic

/-! ### Reverse index (src/client/state/sensors_state.rs, init_scheme)

`SensorsStateActor::new` iterates `MqttScheme::iter()` (strum `EnumIter`
instantiates payload-carrying variants with `Default::default()`, the nil
uuid) and inserts each variant under its response and error templates into
a `HashMap`. -/

def defaultMqttId : MqttId := nilMqttId

def allSchemes : List MqttScheme :=
  [.SensorList, .SensorCreate, .SensorUpdate defaultMqttId,
   .SensorDelete defaultMqttId, .MetricDescribe defaultMqttId defaultMqttId,
   .MetricCreate defaultMqttId, .MetricUpdate defaultMqttId,
   .MetricDelete defaultMqttId, .PushValues defaultMqttId, .Ping]

/-- `HashMap::insert`: overwrite the existing key or append a new entry. -/
def hmInsert (m : List (Topic × MqttScheme)) (k : Topic) (v : MqttScheme) :
    List (Topic × MqttScheme) :=
  if m.any (fun p => p.1 = k) then
    m.map (fun p => if p.1 = k then (k, v) else p)
  else m ++ [(k, v)]

def initScheme (m : List (Topic × MqttScheme)) (sch : MqttScheme) :
    List (Topic × MqttScheme) :=
  let (_, response, error) := sch.getTemplates
  hmInsert (hmInsert m response sch) error sch

/-- The `topic_schemes` map after `SensorsStateActor::new`. -/
def topicSchemes : List (Topic × MqttScheme) :=
  allSchemes.foldl initScheme []

def lookupScheme (m : List (Topic × MqttScheme)) (k : Topic) : Option MqttScheme :=
  (m.find? (fun p => p.1 = k)).map (fun p => p.2)

/-- The embedded ids of a variant, in declaration order. -/
def MqttScheme.schemeIds : MqttScheme → List MqttId
  | .SensorUpdate s | .SensorDelete s | .MetricCreate s
  | .MetricUpdate s | .MetricDelete s | .PushValues s => [s]
  | .MetricDescribe s m => [s, m]
  | _ => []

/-- The representative of a variant stored in the reverse index
(`EnumIter` yields default ids). -/
def MqttScheme.withDefaultIds : MqttScheme → MqttScheme
  | .SensorList => .SensorList
  | .SensorCreate => .SensorCreate
  | .SensorUpdate _ => .SensorUpdate defaultMqttId
  | .SensorDelete _ => .SensorDelete defaultMqttId
  | .MetricDescribe _ _ => .MetricDescribe defaultMqttId defaultMqttId
  | .MetricCreate _ => .MetricCreate defaultMqttId
  | .MetricUpdate _ => .MetricUpdate defaultMqttId
  | .MetricDelete _ => .MetricDelete defaultMqttId
  | .PushValues _ => .PushValues defaultMqttId
  | .Ping => .Ping

/-! ## Client command topic selection (src/client/client.rs)

`SensorVisionClient::delete_metric` wraps a single `DeleteMetricRequest`
in a metrics array and publishes it via the scheme it selects. -/

structure DeleteMetricRequest where
  metricId : MetricId
deriving DecidableEq, Repr

structure MetricsArrayRequest (α : Type) where
  metrics : List α
deriving DecidableEq, Repr

def MetricsArrayRequest.one {α : Type} (metric : α) : MetricsArrayRequest α :=
  { metrics := [metric] }

/-- `SensorVisionClient::delete_metric` (client.rs lines 171-181): the
scheme whose action topic the payload is published to, and the payload. -/
def deleteMetricCommand (sensorId : SensorId) (metricId : MetricId) :
    MqttScheme × MetricsArrayRequest DeleteMetricRequest :=
  (.SensorDelete sensorId, .one { metricId := metricId })

/-! ### Facts about the lexical rule on the fixed template segments -/

@[simp] theorem isHex32_sensor : isHex32 "sensor" = false := by decide
@[simp] theorem isHex32_list : isHex32 "list" = false := by decide
@[simp] theorem isHex32_inventory : isHex32 "inventory" = false := by decide
@[simp] theorem isHex32_inbox : isHex32 "inbox" = false := by decide
@[simp] theorem isHex32_error : isHex32 "error" = false := by decide
@[simp] theorem isHex32_create : isHex32 "create" = false := by decide
@[simp] theorem isHex32_update : isHex32 "update" = false := by decide
@[simp] theorem isHex32_delete : isHex32 "delete" = false := by decide
@[simp] theorem isHex32_metric : isHex32 "metric" = false := by decide
@[simp] theorem isHex32_pushValues : isHex32 "pushValues" = false := by decide
@[simp] theorem isHex32_info : isHex32 "info" = false := by decide
@[simp] theorem isHex32_ping : isHex32 "ping" = false := by decide
@[simp] theorem isHex32_token : isHex32 mqttidToken = false := by decide

theorem hex32_ne_token {s : String} (h : isHex32 s = true) : s ≠ mqttidToken := by
  intro hcontra
  rw [hcontra, isHex32_token] at h
  exact Bool.false_ne_true h

@[simp] theorem sensor_ne_token : ¬ (("sensor" : String) = mqttidToken) := by decide
@[simp] theorem metric_ne_token : ¬ (("metric" : String) = mqttidToken) := by decide

/-- C10: `SensorVisionClient::delete_metric` publishes its metrics-array
payload (one `DeleteMetricRequest`) to the action topic of the
`SensorDelete` scheme, `sensor/<sensorId>/delete`, which differs from the
`MetricDelete` scheme's action topic `sensor/<sensorId>/metric/delete`. -/
theorem deleteMetric_publishes_to_sensorDelete (sensorId : SensorId) (metricId : MetricId) :
    (deleteMetricCommand sensorId metricId).1 = .SensorDelete sensorId ∧
    (deleteMetricCommand sensorId metricId).2 = .one { metricId := metricId } ∧
    (deleteMetricCommand sensorId metricId).1.getTopics.1
      = ["sensor", sensorId.render, "delete"] ∧
    (MqttScheme.MetricDelete sensorId).getTopics.1
      = ["sensor", sensorId.render, "metric", "delete"] ∧
    (deleteMetricCommand sensorId metricId).1.getTopics.1
      ≠ (MqttScheme.MetricDelete sensorId).getTopics.1 := by
  refine ⟨rfl, rfl, ?_, ?_, ?_⟩ <;>
            simp [deleteMetricCommand, MqttScheme.getTopics, MqttScheme.getTemplates,
                  renderTopic, replacePlaceholder, mqttidToken]

/-- C5: for every scheme variant with valid (non-nil, 32-lowercase-hex)
identifiers, parsing each of the three rendered topics recovers exactly
the embedded identifiers in declaration order, the recovered canonical
pattern equals the corresponding template, and the reverse index maps the
success and error patterns back to the same variant (as stored at startup,
with default ids). -/
theorem scheme_roundtrip (sch : MqttScheme)
    (hvalid : ∀ id ∈ sch.schemeIds, isHex32 id = true ∧ id ≠ nilMqttId) :
    extractIdsAndPattern sch.getTopics.1 = (sch.schemeIds, sch.getTemplates.1) ∧
    extractIdsAndPattern sch.getTopics.2.1 = (sch.schemeIds, sch.getTemplates.2.1) ∧
    extractIdsAndPattern sch.getTopics.2.2 = (sch.schemeIds, sch.getTemplates.2.2) ∧
    lookupScheme topicSchemes sch.getTemplates.2.1 = some sch.withDefaultIds ∧
    lookupScheme topicSchemes sch.getTemplates.2.2 = some sch.withDefaultIds := by
  cases sch with
  | SensorList => refine ⟨by decide, by decide, by decide, by decide, by decide⟩
  | SensorCreate => refine ⟨by decide, by decide, by decide, by decide, by decide⟩
  | Ping => refine ⟨by decide, by decide, by decide, by decide, by decide⟩
  | MetricDescribe s m =>
    obtain ⟨hhexs, hnils⟩ := hvalid s (by simp [MqttScheme.schemeIds])
    obtain ⟨hhexm, hnilm⟩ := hvalid m (by simp [MqttScheme.schemeIds])
    have hrs : MqttId.render s = s := if_neg hnils
    have hrm : MqttId.render m = m := if_neg hnilm
    have htoks : s ≠ mqttidToken := hex32_ne_token hhexs
    refine ⟨?_, ?_, ?_, ?_, ?_⟩ <;>
      simp [MqttScheme.getTopics, MqttScheme.getTemplates, MqttScheme.schemeIds,
            MqttScheme.withDefaultIds, renderTopic, replacePlaceholder,
            extractIdsAndPattern, extractScan, hrs, hrm, hhexs, hhexm, htoks] <;>
      decide
  | SensorUpdate s =>
    obtain ⟨hhex, hnil⟩ := hvalid s (by simp [MqttScheme.schemeIds])
    have hr : MqttId.render s = s := if_neg hnil
    have htok : s ≠ mqttidToken := hex32_ne_token hhex
    refine ⟨?_, ?_, ?_, ?_, ?_⟩ <;>
      simp [MqttScheme.getTopics, MqttScheme.getTemplates, MqttScheme.schemeIds,
            MqttScheme.withDefaultIds, renderTopic, replacePlaceholder,
            extractIdsAndPattern, extractScan, hr, hhex, htok] <;>
      decide
  | SensorDelete s =>
    obtain ⟨hhex, hnil⟩ := hvalid s (by simp [MqttScheme.schemeIds])
    have hr : MqttId.render s = s := if_neg hnil
    have htok : s ≠ mqttidToken := hex32_ne_token hhex
    refine ⟨?_, ?_, ?_, ?_, ?_⟩ <;>
      simp [MqttScheme.getTopics, MqttScheme.getTemplates, MqttScheme.schemeIds,
            MqttScheme.withDefaultIds, renderTopic, replacePlaceholder,
            extractIdsAndPattern, extractScan, hr, hhex, htok] <;>
      decide
  | MetricCreate s =>
    obtain ⟨hhex, hnil⟩ := hvalid s (by simp [MqttScheme.schemeIds])
    have hr : MqttId.render s = s := if_neg hnil
    have htok : s ≠ mqttidToken := hex32_ne_token hhex
    refine ⟨?_, ?_, ?_, ?_, ?_⟩ <;>
      simp [MqttScheme.getTopics, MqttScheme.getTemplates, MqttScheme.schemeIds,
            MqttScheme.withDefaultIds, renderTopic, replacePlaceholder,
            extractIdsAndPattern, extractScan, hr, hhex, htok] <;>
      decide
  | MetricUpdate s =>
    obtain ⟨hhex, hnil⟩ := hvalid s (by simp [MqttScheme.schemeIds])
    have hr : MqttId.render s = s := if_neg hnil
    have htok : s ≠ mqttidToken := hex32_ne_token hhex
    refine ⟨?_, ?_, ?_, ?_, ?_⟩ <;>
      simp [MqttScheme.getTopics, MqttScheme.getTemplates, MqttScheme.schemeIds,
            MqttScheme.withDefaultIds, renderTopic, replacePlaceholder,
            extractIdsAndPattern, extractScan, hr, hhex, htok] <;>
      decide
  | MetricDelete s =>
    obtain ⟨hhex, hnil⟩ := hvalid s (by simp [MqttScheme.schemeIds])
    have hr : MqttId.render s = s := if_neg hnil
    have htok : s ≠ mqttidToken := hex32_ne_token hhex
    refine ⟨?_, ?_, ?_, ?_, ?_⟩ <;>
      simp [MqttScheme.getTopics, MqttScheme.getTemplates, MqttScheme.schemeIds,
            MqttScheme.withDefaultIds, renderTopic, replacePlaceholder,
            extractIdsAndPattern, extractScan, hr, hhex, htok] <;>
      decide
  | PushValues s =>
    obtain ⟨hhex, hnil⟩ := hvalid s (by simp [MqttScheme.schemeIds])
    have hr : MqttId.render s = s := if_neg hnil
    have htok : s ≠ mqttidToken := hex32_ne_token hhex
    refine ⟨?_, ?_, ?_, ?_, ?_⟩ <;>
      simp [MqttScheme.getTopics, MqttScheme.getTemplates, MqttScheme.schemeIds,
            MqttScheme.withDefaultIds, renderTopic, replacePlaceholder,
            extractIdsAndPattern, extractScan, hr, hhex, htok] <;>
      decide

/-- Witness for the round-trip theorem at a concrete valid identifier pair. -/
theorem scheme_roundtrip_witness :
    extractIdsAndPattern
        (MqttScheme.MetricDescribe
          "0123456789abcdef0123456789abcdef" "aaaaaaaaaaaaaaaaaaaaaaaaaaaaaaaa").getTopics.2.1
      = (["0123456789abcdef0123456789abcdef", "aaaaaaaaaaaaaaaaaaaaaaaaaaaaaaaa"],
         ["sensor", mqttidToken, "metric", mqttidToken, "inventory", "inbox"]) :=
  (scheme_roundtrip
    (.MetricDescribe "0123456789abcdef0123456789abcdef" "aaaaaaaaaaaaaaaaaaaaaaaaaaaaaaaa")
    (by decide)).2.1

/-! ## Livedata window (src/app/livedata.rs)

`MetricLivedataWindow` keeps a `BTreeMap<u64, f64>` of (timestamp, value)
samples plus derived display fields.  The map is modelled as a
strictly-ascending association list; the four chrono-formatted display
strings are not modelled (calendar formatting is outside the embedding). -/

abbrev Timestamp := Nat

def LIVEDATA_WINDOW_LIMIT : Nat := 50

structure MetricLivedataWindow where
  data : List (Float × Float) := []
  minValue : Float := 0
  maxValue : Float := 0
  minTimestamp : Float := 0
  maxTimestamp : Float := 0
  dataSorted : List (Timestamp × Float) := []

/-- `BTreeMap::insert` on the ascending association list: overwrite an
equal key, otherwise splice the pair in key order. -/
def btreeInsert : List (Timestamp × Float) → Timestamp → Float → List (Timestamp × Float)
  | [], ts, v => [(ts, v)]
  | (k, u) :: rest, ts, v =>
    if ts < k then (ts, v) :: (k, u) :: rest
    else if ts = k then (ts, v) :: rest
    else (k, u) :: btreeInsert rest ts v

/-- `self.data_sorted.remove(&self.data_sorted.keys().next().unwrap())`:
on the ascending list the smallest key is the head.  Only reached with a
non-empty map in the source (it is guarded by `len == LIMIT`). -/
def btreeRemoveMin : List (Timestamp × Float) → List (Timestamp × Float)
  | [] => []
  | _ :: rest => rest

/-- Rust's `Iterator::reduce`: fold the tail starting from the head.  The
empty case is unreachable in the source (`unwrap` after an insert). -/
def reduceOr (f : Float → Float → Float) : List Float → Float
  | [] => 0
  | x :: xs => xs.foldl f x

/-- `MetricLivedataWindow::push_data`. -/
def MetricLivedataWindow.pushData (w : MetricLivedataWindow) (timestamp : Timestamp)
    (value : Float) : MetricLivedataWindow :=
  let sorted0 :=
    if w.dataSorted.length = LIVEDATA_WINDOW_LIMIT then btreeRemoveMin w.dataSorted
    else w.dataSorted
  let sorted1 := btreeInsert sorted0 timestamp value
  -- first_key_value / last_key_value (unwrap: sorted1 is non-empty)
  let minTs : Timestamp := ((sorted1.head?).map Prod.fst).getD 0
  let maxTs : Timestamp := ((sorted1.getLast?).map Prod.fst).getD 0
  let data1 := sorted1.map (fun p => (Float.ofNat p.1, p.2))
  { data := data1
    minValue := reduceOr (fun a b => if a < b then a else b) (data1.map Prod.snd)
    maxValue := reduceOr (fun a b => if a < b then b else a) (data1.map Prod.snd)
    minTimestamp := Float.ofNat minTs
    maxTimestamp := Float.ofNat maxTs
    dataSorted := sorted1 }

/-- Apply a sequence of `push_data` calls in order. -/
def pushAll (w : MetricLivedataWindow) (pushes : List (Timestamp × Float)) :
    MetricLivedataWindow :=
  pushes.foldl (fun acc p => acc.pushData p.1 p.2) w

/-- The retained timestamps, in retention order. -/
def MetricLivedataWindow.keys (w : MetricLivedataWindow) : List Timestamp :=
  w.dataSorted.map Prod.fst

/-! ### Facts about `btreeInsert` and `push_data` -/

/-- Strict ascending key order, i.e. the `BTreeMap` representation invariant. -/
def AscendingKeys (l : List (Timestamp × Float)) : Prop :=
  List.Pairwise (fun a b => a.1 < b.1) l

theorem mem_btreeInsert {l : List (Timestamp × Float)} {ts : Timestamp} {v : Float}
    {p : Timestamp × Float} (h : p ∈ btreeInsert l ts v) : p.1 = ts ∨ p ∈ l := by
  induction l with
  | nil =>
    simp only [btreeInsert, List.mem_singleton] at h
    exact Or.inl (by rw [h])
  | cons ku rest ih =>
    obtain ⟨k, u⟩ := ku
    simp only [btreeInsert] at h
    split at h
    · rcases List.mem_cons.mp h with h | h
      · exact Or.inl (by rw [h])
      · exact Or.inr h
    · split at h
      · next h2 =>
        rcases List.mem_cons.mp h with h | h
        · exact Or.inl (by rw [h])
        · exact Or.inr (List.mem_cons_of_mem _ h)
      · rcases List.mem_cons.mp h with h | h
        · exact Or.inr (by rw [h]; exact List.mem_cons_self _ _)
        · rcases ih h with h | h
          · exact Or.inl h
          · exact Or.inr (List.mem_cons_of_mem _ h)

theorem btreeInsert_ascending {l : List (Timestamp × Float)} (ts : Timestamp) (v : Float)
    (h : AscendingKeys l) : AscendingKeys (btreeInsert l ts v) := by
  induction l with
  | nil => simp [btreeInsert, AscendingKeys]
  | cons ku rest ih =>
    obtain ⟨k, u⟩ := ku
    rw [AscendingKeys, List.pairwise_cons] at h
    obtain ⟨hk, hrest⟩ := h
    rw [AscendingKeys]
    simp only [btreeInsert]
    split
    · next h1 =>
      refine List.Pairwise.cons ?_ (List.Pairwise.cons hk hrest)
      intro p hp
      show ts < p.1
      rcases List.mem_cons.mp hp with hp | hp
      · rw [hp]; exact h1
      · exact Nat.lt_trans h1 (hk p hp)
    · next h1 =>
      split
      · next h2 =>
        subst h2
        exact List.Pairwise.cons hk hrest
      · next h2 =>
        have h3 : k < ts :=
          Nat.lt_of_le_of_ne (Nat.le_of_not_lt h1) (fun hh => h2 hh.symm)
        refine List.Pairwise.cons ?_ (ih hrest)
        intro p hp
        show k < p.1
        rcases mem_btreeInsert hp with hp | hp
        · rw [hp]; exact h3
        · exact hk p hp

theorem btreeInsert_length_le (l : List (Timestamp × Float)) (ts : Timestamp) (v : Float) :
    (btreeInsert l ts v).length ≤ l.length + 1 := by
  induction l with
  | nil => simp [btreeInsert]
  | cons ku rest ih =>
    obtain ⟨k, u⟩ := ku
    simp only [btreeInsert]
    split
    · simp
    · split
      · simp
      · simp only [List.length_cons]
        omega

theorem lookup_btreeInsert (l : List (Timestamp × Float)) (ts : Timestamp) (v : Float) :
    (btreeInsert l ts v).lookup ts = some v := by
  induction l with
  | nil => simp [btreeInsert, List.lookup]
  | cons ku rest ih =>
    obtain ⟨k, u⟩ := ku
    simp only [btreeInsert]
    split
    · simp [List.lookup]
    · split
      · simp [List.lookup]
      · next h2 =>
        have hne : (ts == k) = false := by simp [h2]
        simp [List.lookup, hne, ih]

theorem btreeInsert_keys_perm {l : List (Timestamp × Float)} {ts : Timestamp} (v : Float)
    (h : ts ∉ l.map Prod.fst) :
    List.Perm ((btreeInsert l ts v).map Prod.fst) (ts :: l.map Prod.fst) := by
  induction l with
  | nil => simp [btreeInsert]
  | cons ku rest ih =>
    obtain ⟨k, u⟩ := ku
    simp only [List.map_cons, List.mem_cons] at h
    push_neg at h
    obtain ⟨hk, hrest⟩ := h
    simp only [btreeInsert]
    split
    · simp
    · next h1 =>
      simp only [List.map_cons]
      exact List.Perm.trans ((ih hrest).cons k) (List.Perm.swap ts k _)

/-- The representation invariant of a livedata window. -/
def windowInv (w : MetricLivedataWindow) : Prop :=
  w.dataSorted.length ≤ LIVEDATA_WINDOW_LIMIT ∧ AscendingKeys w.dataSorted

theorem pushData_dataSorted (w : MetricLivedataWindow) (ts : Timestamp) (v : Float) :
    (w.pushData ts v).dataSorted =
      btreeInsert
        (if w.dataSorted.length = LIVEDATA_WINDOW_LIMIT then btreeRemoveMin w.dataSorted
         else w.dataSorted) ts v := rfl

theorem btreeRemoveMin_ascending {l : List (Timestamp × Float)} (h : AscendingKeys l) :
    AscendingKeys (btreeRemoveMin l) := by
  cases l with
  | nil => exact h
  | cons x rest => exact (List.pairwise_cons.mp h).2

theorem pushData_inv {w : MetricLivedataWindow} (ts : Timestamp) (v : Float)
    (h : windowInv w) : windowInv (w.pushData ts v) := by
  obtain ⟨hlen, hasc⟩ := h
  constructor
  · rw [pushData_dataSorted]
    by_cases hfull : w.dataSorted.length = LIVEDATA_WINDOW_LIMIT
    · simp only [hfull, if_pos]
      have h1 : (btreeRemoveMin w.dataSorted).length ≤ LIVEDATA_WINDOW_LIMIT - 1 := by
        cases hh : w.dataSorted with
        | nil => simp [hh] at hfull; simp [btreeRemoveMin, hh]
        | cons x rest =>
          simp [btreeRemoveMin]
          rw [hh] at hfull
          simp at hfull
          omega
      calc (btreeInsert (btreeRemoveMin w.dataSorted) ts v).length
          ≤ (btreeRemoveMin w.dataSorted).length + 1 := btreeInsert_length_le _ _ _
        _ ≤ LIVEDATA_WINDOW_LIMIT := by
            have : 1 ≤ LIVEDATA_WINDOW_LIMIT := by decide
            omega
    · simp only [hfull, if_neg, not_false_iff]
      have hlt : w.dataSorted.length + 1 ≤ LIVEDATA_WINDOW_LIMIT := by omega
      calc (btreeInsert w.dataSorted ts v).length
          ≤ w.dataSorted.length + 1 := btreeInsert_length_le _ _ _
        _ ≤ LIVEDATA_WINDOW_LIMIT := hlt
  · rw [pushData_dataSorted]
    by_cases hfull : w.dataSorted.length = LIVEDATA_WINDOW_LIMIT
    · simp only [hfull, if_pos]
      exact btreeInsert_ascending ts v (btreeRemoveMin_ascending hasc)
    · simp only [hfull, if_neg, not_false_iff]
      exact btreeInsert_ascending ts v hasc

/-- C9: from its empty initial state, a livedata window never exceeds the
capacity of 50 and its retained series is always strictly ascending by
timestamp (hence duplicate-free); and pushing an already-present
timestamp overwrites the stored value (the later write wins). -/
theorem livedata_window_invariant :
    (∀ pushes : List (Timestamp × Float), windowInv (pushAll {} pushes)) ∧
    (∀ (w : MetricLivedataWindow) (ts : Timestamp) (v : Float),
      (w.pushData ts v).dataSorted.lookup ts = some v) := by
  constructor
  · intro pushes
    have hstep : ∀ (l : List (Timestamp × Float)) (w : MetricLivedataWindow),
        windowInv w → windowInv (pushAll w l) := by
      intro l
      induction l with
      | nil => intro w h; exact h
      | cons p rest ih =>
        intro w h
        exact ih _ (pushData_inv p.1 p.2 h)
    exact hstep pushes {} ⟨by simp [LIVEDATA_WINDOW_LIMIT], List.Pairwise.nil⟩
  · intro w ts v
    rw [pushData_dataSorted]
    exact lookup_btreeInsert _ ts v

theorem pushAll_cons (w : MetricLivedataWindow) (p : Timestamp × Float)
    (rest : List (Timestamp × Float)) :
    pushAll w (p :: rest) = pushAll (w.pushData p.1 p.2) rest := rfl

theorem pushAll_append (w : MetricLivedataWindow) (l₁ l₂ : List (Timestamp × Float)) :
    pushAll w (l₁ ++ l₂) = pushAll (pushAll w l₁) l₂ :=
  List.foldl_append _ _ _ _

/-- While the window stays within capacity, pushing fresh distinct
timestamps retains all of them and preserves the invariant. -/
theorem pushAll_keys_perm :
    ∀ (l : List (Timestamp × Float)) (w : MetricLivedataWindow),
      windowInv w →
      w.dataSorted.length + l.length ≤ LIVEDATA_WINDOW_LIMIT →
      (w.keys ++ l.map Prod.fst).Nodup →
      List.Perm (pushAll w l).keys (w.keys ++ l.map Prod.fst) ∧ windowInv (pushAll w l) := by
  intro l
  induction l with
  | nil =>
    intro w hinv _ _
    refine ⟨?_, hinv⟩
    simp [pushAll]
  | cons p rest ih =>
    intro w hinv hlen hnd
    obtain ⟨ts, v⟩ := p
    have hnotfull : ¬ w.dataSorted.length = LIVEDATA_WINDOW_LIMIT := by
      simp only [List.length_cons] at hlen
      omega
    have hdisj := (List.nodup_append.mp hnd).2.2
    have hts : ts ∉ w.keys := by
      intro hmem
      exact hdisj hmem (by simp)
    have hkeys1 : List.Perm (w.pushData ts v).keys (ts :: w.keys) := by
      rw [MetricLivedataWindow.keys, pushData_dataSorted, if_neg hnotfull]
      exact btreeInsert_keys_perm v hts
    have hinv1 : windowInv (w.pushData ts v) := pushData_inv ts v hinv
    have hlenkeys : (w.pushData ts v).dataSorted.length = w.dataSorted.length + 1 := by
      have h1 := hkeys1.length_eq
      simpa [MetricLivedataWindow.keys] using h1
    have hlen1 : (w.pushData ts v).dataSorted.length + rest.length ≤ LIVEDATA_WINDOW_LIMIT := by
      simp only [List.length_cons] at hlen
      omega
    have hndall : ((ts :: w.keys) ++ rest.map Prod.fst).Nodup := by
      refine List.Perm.nodup ?_ hnd
      simp
    have hnd1 : ((w.pushData ts v).keys ++ rest.map Prod.fst).Nodup :=
      List.Perm.nodup (List.Perm.symm (hkeys1.append_right _)) hndall
    obtain ⟨hperm, hinv2⟩ := ih (w.pushData ts v) hinv1 hlen1 hnd1
    rw [pushAll_cons]
    refine ⟨?_, hinv2⟩
    have hstep : List.Perm ((w.pushData ts v).keys ++ rest.map Prod.fst)
        ((ts :: w.keys) ++ rest.map Prod.fst) := hkeys1.append_right _
    have hmid : List.Perm ((ts :: w.keys) ++ rest.map Prod.fst)
        (w.keys ++ ts :: rest.map Prod.fst) := List.Perm.symm List.perm_middle
    have hall := (hperm.trans hstep).trans hmid
    simpa using hall

theorem head_min_of_ascending {x : Timestamp × Float} {xs : List (Timestamp × Float)}
    (h : AscendingKeys (x :: xs)) : ∀ p ∈ x :: xs, x.1 ≤ p.1 := by
  intro p hp
  rcases List.mem_cons.mp hp with hp | hp
  · rw [hp]
  · exact Nat.le_of_lt ((List.pairwise_cons.mp h).1 p hp)

/-- C2 (amended): pushing 51 samples with pairwise-distinct timestamps
into an empty window retains exactly the 51 timestamps minus the smallest
timestamp among the FIRST 50 pushed (the single entry evicted by the 51st
push), ordered strictly ascending by timestamp.  The retained set is the
50 highest only when the overall smallest timestamp is among the first 50
pushed. -/
theorem livedata_push51 (l : List (Timestamp × Float))
    (hlen : l.length = 51) (hnd : (l.map Prod.fst).Nodup) :
    ∃ m, m ∈ (l.take 50).map Prod.fst ∧
      (∀ b ∈ (l.take 50).map Prod.fst, m ≤ b) ∧
      List.Pairwise (fun a b => a < b) (pushAll {} l).keys ∧
      (pushAll {} l).keys.toFinset = (l.map Prod.fst).toFinset \ {m} := by
  obtain ⟨p51, hp51⟩ : ∃ p, l.drop 50 = [p] :=
    List.length_eq_one.mp (by simp [hlen])
  have hsplit : l = l.take 50 ++ [p51] := by
    rw [← hp51, List.take_append_drop]
  have htlen : (l.take 50).length = 50 := by simp [hlen]
  have hkeysplit : l.map Prod.fst = (l.take 50).map Prod.fst ++ [p51.1] := by
    conv_lhs => rw [hsplit]
    simp
  have hnd50 : ((l.take 50).map Prod.fst).Nodup := by
    rw [hkeysplit] at hnd
    exact (List.nodup_append.mp hnd).1
  have hp51fresh : p51.1 ∉ (l.take 50).map Prod.fst := by
    rw [hkeysplit] at hnd
    intro hmem
    exact (List.nodup_append.mp hnd).2.2 hmem (by simp)
  -- the first 50 pushes fill the window without eviction
  have hempty : windowInv {} := ⟨by simp [LIVEDATA_WINDOW_LIMIT], List.Pairwise.nil⟩
  obtain ⟨hperm50, hinv50⟩ :=
    pushAll_keys_perm (l.take 50) {} hempty
      (by simp [htlen, LIVEDATA_WINDOW_LIMIT])
      (by simpa [MetricLivedataWindow.keys] using hnd50)
  set w50 := pushAll {} (l.take 50) with hw50
  have hw50keys : List.Perm w50.keys ((l.take 50).map Prod.fst) := by
    simpa [MetricLivedataWindow.keys] using hperm50
  have hw50len : w50.dataSorted.length = 50 := by
    have h1 := hw50keys.length_eq
    simp only [MetricLivedataWindow.keys, List.length_map] at h1
    rw [htlen] at h1
    exact h1
  obtain ⟨hd, tl, hcons⟩ : ∃ hd tl, w50.dataSorted = hd :: tl := by
    cases hds : w50.dataSorted with
    | nil => rw [hds] at hw50len; simp at hw50len
    | cons hd tl => exact ⟨hd, tl, rfl⟩
  have hasc50 : AscendingKeys w50.dataSorted := hinv50.2
  have hheadmin : ∀ p ∈ w50.dataSorted, hd.1 ≤ p.1 := by
    rw [hcons]
    exact head_min_of_ascending (hcons ▸ hasc50)
  refine ⟨hd.1, ?_, ?_, ?_, ?_⟩
  · exact hw50keys.subset (by simp [MetricLivedataWindow.keys, hcons])
  · intro b hb
    have hbmem : b ∈ w50.keys := (List.Perm.mem_iff hw50keys).mpr hb
    obtain ⟨p, hp, hpb⟩ := List.mem_map.mp hbmem
    exact hpb ▸ hheadmin p hp
  all_goals
    have hfinal : (pushAll {} l).dataSorted = btreeInsert tl p51.1 p51.2 := by
      conv_lhs => rw [hsplit]
      rw [pushAll_append, ← hw50]
      show (w50.pushData p51.1 p51.2).dataSorted = btreeInsert tl p51.1 p51.2
      rw [pushData_dataSorted, hw50len]
      simp [LIVEDATA_WINDOW_LIMIT, hcons, btreeRemoveMin]
  · -- strict ascending order of the final retained series
    have hasctl : AscendingKeys tl := by
      have h2 : AscendingKeys (hd :: tl) := hcons ▸ hasc50
      exact (List.pairwise_cons.mp h2).2
    have hasc : AscendingKeys (btreeInsert tl p51.1 p51.2) :=
      btreeInsert_ascending _ _ hasctl
    rw [MetricLivedataWindow.keys, hfinal]
    exact hasc.map _ (fun a b h => h)
  · -- the retained timestamp set
    have hmemtl : p51.1 ∉ tl.map Prod.fst := by
      intro hmem
      apply hp51fresh
      refine (List.Perm.mem_iff hw50keys).mp ?_
      simp [MetricLivedataWindow.keys, hcons, hmem]
    have hpermF : List.Perm ((btreeInsert tl p51.1 p51.2).map Prod.fst)
        (p51.1 :: tl.map Prod.fst) := btreeInsert_keys_perm _ hmemtl
    have hndw50 : w50.keys.Nodup :=
      (hasc50.map Prod.fst (fun a b h => h)).nodup
    have hhdtl : hd.1 ∉ tl.map Prod.fst := by
      rw [MetricLivedataWindow.keys, hcons] at hndw50
      simpa using (List.nodup_cons.mp hndw50).1
    have hne : p51.1 ≠ hd.1 := by
      intro hcontra
      apply hp51fresh
      rw [hcontra]
      exact hw50keys.subset (by simp [MetricLivedataWindow.keys, hcons])
    rw [MetricLivedataWindow.keys, hfinal,
        List.toFinset_eq_of_perm _ _ hpermF, hkeysplit]
    have hT50 : ((l.take 50).map Prod.fst).toFinset = insert hd.1 (tl.map Prod.fst).toFinset := by
      rw [← List.toFinset_eq_of_perm _ _ hw50keys]
      simp [MetricLivedataWindow.keys, hcons]
    rw [List.toFinset_append, hT50]
    ext a
    simp only [List.toFinset_cons, List.toFinset_nil, List.mem_toFinset, Finset.mem_insert,
      Finset.mem_sdiff, Finset.mem_union, Finset.mem_singleton, insert_emptyc_eq]
    constructor
    · rintro (rfl | ha)
      · exact ⟨Or.inr rfl, hne⟩
      · exact ⟨Or.inl (Or.inr ha), fun hcontra => hhdtl (hcontra ▸ ha)⟩
    · rintro ⟨(rfl | ha) | rfl, hnem⟩
      · exact absurd rfl hnem
      · exact Or.inr ha
      · exact Or.inl rfl

/-- 51 pushes with pairwise-distinct timestamps: 2..51 in order, then 1. -/
def cex51 : List (Timestamp × Float) :=
  ((List.range 50).map (fun i => (i + 2, (0 : Float)))) ++ [(1, (0 : Float))]

set_option maxRecDepth 4000 in
/-- C2 counterexample: after pushing the 51 distinct timestamps
2,3,...,51 and then 1, the window retains {1,3,4,...,51} — the 51st push
evicted the retained minimum 2 before inserting 1 — which is not the set
{2,...,51} of the 50 highest timestamps. -/
theorem livedata_51_counterexample :
    (pushAll {} cex51).keys ≠ (List.range 50).map (fun i => i + 2) := by
  decide

/-- Witness: the amended 51-push statement at the concrete push sequence
2..51,1 (hypotheses discharged by evaluation). -/
theorem livedata_push51_witness :
    ∃ m, m ∈ (cex51.take 50).map Prod.fst ∧
      (∀ b ∈ (cex51.take 50).map Prod.fst, m ≤ b) ∧
      List.Pairwise (fun a b => a < b) (pushAll {} cex51).keys ∧
      (pushAll {} cex51).keys.toFinset = (cex51.map Prod.fst).toFinset \ {m} :=
  livedata_push51 cex51 (by decide) (by decide)

/-! ## Domain model (src/model/sensor.rs, src/model/protocol.rs) -/

inductive ValueUnit
  | Ampere | Bit | Candela | Celsius | Decibel | Farad | Hertz | Joule
  | Kilogram | Latitude | Longitude | Meter | MetersPerSecond
  | MetersPerSquareSecond | Mole | Newton | Ohm | Pascal | Percent
  | Radian | Second | SquareMetre | Volt | Watt
deriving DecidableEq, Repr

inductive ValueType
  | Boolean | Double | Integer | String
deriving DecidableEq, Repr

inductive Metric
  | Predefined (name : String) (metricId : MetricId) (valueUnit : ValueUnit)
  | Custom (name : String) (metricId : MetricId) ( valueAnnotation : String)
      (valueType : ValueType)
deriving DecidableEq, Repr

def Metric.metricId : Metric → MetricId
  | .Predefined _ metricId _ => metricId
  | .Custom _ metricId _ _ => metricId

def Metric.name : Metric → String
  | .Predefined name _ _ => name
  | .Custom name _ _ _ => name

def Metric.rename : Metric → String → Metric
  | .Predefined _ metricId valueUnit, n => .Predefined n metricId valueUnit
  | .Custom _ metricId valueAnnotation valueType, n =>
      .Custom n metricId valueAnnotation valueType

structure LinkedMetric where
  link : String
  metricId : MetricId
deriving DecidableEq, Repr

structure Sensor (α : Type) where
  name : String
  sensorId : SensorId
  metrics : List α
  connectorId : MqttId
deriving Repr

/-- `MetricValue` (untagged union of the JSON value kinds). -/
inductive MetricValue
  | Integer (i : Int)
  | Double (d : Float)
  | String (s : String)
  | Boolean (b : Bool)
deriving Repr

/-! ## State store and reconciliation (src/client/state/sensors_state.rs) -/

inductive SensorStateEvent
  | NewLinkedSensorLoaded (sensor : Sensor LinkedMetric)
  | ExistingLinkedSensorLoaded (sensor : Sensor LinkedMetric)
  | NewMetricLoaded (sensorId : SensorId) (metric : Metric)
  | NewSensorCreated (sensor : Sensor Metric)
  | NewMetricCreated (sensorId : SensorId) (metricId : MetricId)
  | SensorUpdated (sensorId : SensorId)
  | SensorMetricsUpdated (sensorId : SensorId)
  | SensorDeleted (sensorId : SensorId)
  | MetricDeleted (sensorId : SensorId) (metricId : MetricId)
  | SensorNameChanged (sensorId : SensorId) (name : String)
  | MetricNameChanged (sensorId : SensorId) (metricId : MetricId) (name : String)
  | MetricValueAnnotationChanged (sensorId : SensorId) (metricId : MetricId)
      ( annotation : String)
  | Livedata (sensorId : SensorId) (metricId : MetricId) (value : MetricValue)
      (timestamp : Nat)
  | Error (message : String) (code : Int)
deriving Repr

/-- `Sensors = BTreeMap<SensorId, Sensor<Metric>>`, modelled as an
association list with unique keys; the claims below observe the map only
through key lookup, never through iteration order. -/
abbrev Sensors := List (SensorId × Sensor Metric)

def sensorsContains (st : Sensors) (k : SensorId) : Bool :=
  st.any (fun p => p.1 = k)

def sensorsLookup (st : Sensors) (k : SensorId) : Option (Sensor Metric) :=
  (st.find? (fun p => p.1 = k)).map (fun p => p.2)

/-- The in-place mutation through `get_mut`. -/
def sensorsUpdate (st : Sensors) (k : SensorId) (v : Sensor Metric) : Sensors :=
  st.map (fun p => if p.1 = k then (k, v) else p)

/-- `BTreeMap::insert`. -/
def sensorsInsert (st : Sensors) (k : SensorId) (v : Sensor Metric) : Sensors :=
  if sensorsContains st k then sensorsUpdate st k v else st ++ [(k, v)]

/-- `BTreeMap::remove`. -/
def sensorsErase (st : Sensors) (k : SensorId) : Sensors :=
  st.filter (fun p => ¬ p.1 = k)

/-- One iteration of the `for deleted_metric_id in deleted_metric_ids`
loop of `event_sensor_list`: drop the metric from the list and record the
`MetricDeleted` event. -/
def deleteMetricsStep (sid : SensorId) (acc : Sensor Metric × List SensorStateEvent)
    (d : MetricId) : Sensor Metric × List SensorStateEvent :=
  ({ acc.1 with metrics := acc.1.metrics.filter (fun m => ¬ d = m.metricId) },
   acc.2 ++ [SensorStateEvent.MetricDeleted sid d])

/-- The body of the per-sensor loop of
`SensorsStateActor::event_sensor_list` (`contains_key` is modelled as a
`lookup` match). -/
def applyLinkedSensor (st : Sensors) (ls : Sensor LinkedMetric) :
    Sensors × List SensorStateEvent :=
  match sensorsLookup st ls.sensorId with
  | some existingSensor =>
    let linkedMetricIds := ls.metrics.map LinkedMetric.metricId
    -- HashSet difference; the Rust HashSet iteration order is unspecified,
    -- modelled as a duplicate-free sublist of the existing metric ids
    let deletedMetricIds :=
      (existingSensor.metrics.map Metric.metricId).dedup.filter
        (fun i => ¬ linkedMetricIds.contains i)
    let sensor1 :=
      if existingSensor.name ≠ ls.name then { existingSensor with name := ls.name }
      else existingSensor
    let events1 : List SensorStateEvent :=
      if existingSensor.name ≠ ls.name then
        [SensorStateEvent.SensorNameChanged ls.sensorId ls.name]
      else []
    let folded := deletedMetricIds.foldl (deleteMetricsStep ls.sensorId) (sensor1, [])
    (sensorsUpdate st ls.sensorId folded.1,
     events1 ++ folded.2 ++ [SensorStateEvent.ExistingLinkedSensorLoaded ls])
  | none =>
    let newSensor : Sensor Metric :=
      { name := ls.name, connectorId := ls.connectorId,
        sensorId := ls.sensorId, metrics := [] }
    (sensorsInsert st ls.sensorId newSensor,
     [SensorStateEvent.NewLinkedSensorLoaded ls])

/-- `SensorsStateActor::event_sensor_list` applied to an
already-deserialized snapshot (a JSON parse failure returns early with no
events and no mutation). -/
def eventSensorList (st : Sensors) (linkedSensors : List (Sensor LinkedMetric)) :
    Sensors × List SensorStateEvent :=
  linkedSensors.foldl
    (fun acc ls =>
      ((applyLinkedSensor acc.1 ls).1, acc.2 ++ (applyLinkedSensor acc.1 ls).2))
    (st, [])

/-- `SensorsStateActor::event_sensor_delete` (`ids.pop()` takes the last
extracted id). -/
def eventSensorDelete (st : Sensors) (ids : List MqttId) (message : String) :
    Sensors × List SensorStateEvent :=
  match ids.getLast? with
  | some sensorId =>
    if message = "Sensor was deleted." then
      (sensorsErase st sensorId, [SensorStateEvent.SensorDeleted sensorId])
    else (st, [])
  | none => (st, [])

/-- `SensorsStateActor::event_metric_delete`: on the fixed
acknowledgement text it only emits `SensorUpdated` — it does not touch
the store and emits no `MetricDeleted`. -/
def eventMetricDelete (st : Sensors) (ids : List MqttId) (message : String) :
    Sensors × List SensorStateEvent :=
  match ids.getLast? with
  | some sensorId =>
    if message = "All metrics were successfully deleted." then
      (st, [SensorStateEvent.SensorUpdated sensorId])
    else (st, [])
  | none => (st, [])

structure PushMetricValueResponse where
  metricId : MetricId
  value : MetricValue
deriving Repr

structure MetricsArrayResponse (α : Type) where
  metrics : List α
  timestamp : Option Nat
deriving Repr

/-- `SensorsStateActor::event_livedata` on the already-deserialized
payload.  `none` models a panic: the source calls
`value_updates.timestamp.unwrap()` for every element of the metrics
array, which panics when the payload has no timestamp field. -/
def eventLivedata (st : Sensors) (ids : List MqttId)
    (payload : MetricsArrayResponse PushMetricValueResponse) :
    Option (Sensors × List SensorStateEvent) :=
  match ids.getLast? with
  | some sensorId =>
    payload.metrics.foldlM
      (fun (acc : Sensors × List SensorStateEvent) vu =>
        match payload.timestamp with
        | some ts =>
          some (acc.1, acc.2 ++
            [SensorStateEvent.Livedata sensorId vu.metricId vu.value ts])
        | none => none)
      (st, [])
  | none => some (st, [])

/-- `msg.topic[39..]` in `Handler<MqttEvent>::handle`: the byte slice
panics (modelled as `none`) whenever the topic is shorter than 39 bytes
(topics here are ASCII, so bytes coincide with characters). -/
def shortTopicOf (topic : String) : Option String :=
  if topic.length < 39 then none else some (topic.drop 39)

/-- C8: processing an inbound transport message can terminate the engine:
a livedata payload whose metrics array is non-empty but whose JSON body
has no timestamp field drives `timestamp.unwrap()` into a panic
(`sensors_state.rs:346`), and any topic shorter than 39 bytes drives the
byte slice `msg.topic[39..]` (`sensors_state.rs:358`) into a panic; both
are modelled as `none`. -/
theorem inbound_message_can_panic :
    eventLivedata [] ["aaaaaaaaaaaaaaaaaaaaaaaaaaaaaaaa"]
      { metrics := [{ metricId := "bbbbbbbbbbbbbbbbbbbbbbbbbbbbbbbb",
                      value := .Integer 1 }],
        timestamp := none } = none ∧
    shortTopicOf "ping" = none := by
  refine ⟨rfl, by decide⟩

def demoSensorId : SensorId := "aaaaaaaaaaaaaaaaaaaaaaaaaaaaaaaa"

def demoMetric : Metric :=
  .Custom "Temperature" "bbbbbbbbbbbbbbbbbbbbbbbbbbbbbbbb" "C" .Double

def demoStore : Sensors :=
  [(demoSensorId,
    { name := "Sensor1", sensorId := demoSensorId, metrics := [demoMetric],
      connectorId := nilMqttId })]

/-- C4 counterexample: a metric deletion acknowledgement does not remove
the metric from its sensor's metric list and does not emit
`MetricDeleted`; the store is unchanged (the metric is still cached) and
the only event is `SensorUpdated`. -/
theorem metric_delete_ack_counterexample :
    (eventMetricDelete demoStore [demoSensorId]
        "All metrics were successfully deleted.").1 = demoStore ∧
    (eventMetricDelete demoStore [demoSensorId]
        "All metrics were successfully deleted.").2
      = [SensorStateEvent.SensorUpdated demoSensorId] ∧
    sensorsLookup (eventMetricDelete demoStore [demoSensorId]
        "All metrics were successfully deleted.").1 demoSensorId
      = some { name := "Sensor1", sensorId := demoSensorId,
               metrics := [demoMetric], connectorId := nilMqttId } :=
  ⟨rfl, rfl, rfl⟩

/-- C4 (amended): a sensor deletion acknowledgement removes the sensor —
and with it all its metrics — from the store and emits `SensorDeleted`;
a metric deletion acknowledgement leaves the store unchanged and emits
`SensorUpdated` (a refresh request) instead of `MetricDeleted` — the
metric disappears, and `MetricDeleted` fires, only via the subsequent
snapshot diff. -/
theorem delete_ack_behaviour (st : Sensors) (ids : List MqttId) (sid : SensorId)
    (h : ids.getLast? = some sid) :
    eventSensorDelete st ids "Sensor was deleted."
      = (sensorsErase st sid, [SensorStateEvent.SensorDeleted sid]) ∧
    sensorsLookup (sensorsErase st sid) sid = none ∧
    eventMetricDelete st ids "All metrics were successfully deleted."
      = (st, [SensorStateEvent.SensorUpdated sid]) := by
  refine ⟨by simp [eventSensorDelete, h], ?_, by simp [eventMetricDelete, h]⟩
  rw [sensorsLookup]
  have hnone : (sensorsErase st sid).find? (fun p => p.1 = sid) = none := by
    rw [List.find?_eq_none]
    intro p hp
    have hmem := List.of_mem_filter hp
    simpa using hmem
  simp [hnone]

/-- Witness for the deletion-acknowledgement theorem at a concrete store. -/
theorem delete_ack_behaviour_witness :
    eventSensorDelete demoStore [demoSensorId] "Sensor was deleted."
      = (sensorsErase demoStore demoSensorId,
         [SensorStateEvent.SensorDeleted demoSensorId]) ∧
    sensorsLookup (sensorsErase demoStore demoSensorId) demoSensorId = none ∧
    eventMetricDelete demoStore [demoSensorId]
        "All metrics were successfully deleted."
      = (demoStore, [SensorStateEvent.SensorUpdated demoSensorId]) :=
  delete_ack_behaviour demoStore [demoSensorId] demoSensorId rfl

def isMetricDeleted : SensorStateEvent → Bool
  | .MetricDeleted _ _ => true
  | _ => false

/-- C7: a sensor cached with metric list A,B,C receiving a snapshot entry
that lists only A and C emits exactly one `MetricDeleted` event — for B —
and ends with local metric list A,C, preserving the pre-existing relative
order of A and C. -/
theorem snapshot_metric_diff (s : SensorId) (nm : String) (cid cid' : MqttId)
    (mA mB mC : Metric) (lA lC : String)
    (hAB : mA.metricId ≠ mB.metricId) (hBC : mB.metricId ≠ mC.metricId)
    (hAC : mA.metricId ≠ mC.metricId) :
    (eventSensorList
        [(s, { name := nm, sensorId := s, metrics := [mA, mB, mC],
               connectorId := cid })]
        [{ name := nm, sensorId := s,
           metrics := [{ link := lA, metricId := mA.metricId },
                       { link := lC, metricId := mC.metricId }],
           connectorId := cid' }]).2.filter isMetricDeleted
      = [SensorStateEvent.MetricDeleted s mB.metricId] ∧
    sensorsLookup
        (eventSensorList
          [(s, { name := nm, sensorId := s, metrics := [mA, mB, mC],
                 connectorId := cid })]
          [{ name := nm, sensorId := s,
             metrics := [{ link := lA, metricId := mA.metricId },
                         { link := lC, metricId := mC.metricId }],
             connectorId := cid' }]).1 s
      = some { name := nm, sensorId := s, metrics := [mA, mC],
               connectorId := cid } := by
  have hBA : ¬ (mB.metricId = mA.metricId) := fun hh => hAB hh.symm
  have hCA : ¬ (mC.metricId = mA.metricId) := fun hh => hAC hh.symm
  have hCB : ¬ (mC.metricId = mB.metricId) := fun hh => hBC hh.symm
  constructor <;>
    simp [eventSensorList, applyLinkedSensor, deleteMetricsStep, sensorsLookup,
          sensorsUpdate, isMetricDeleted, List.dedup_cons_of_not_mem, List.contains,
          hAB, hBC, hAC, hBA, hCA, hCB]

/-! ### Map lemmas for the snapshot-idempotence proof -/

theorem sensorsLookup_nil (k : SensorId) : sensorsLookup [] k = none := rfl

theorem sensorsLookup_cons (p : SensorId × Sensor Metric) (rest : Sensors) (k : SensorId) :
    sensorsLookup (p :: rest) k
      = if p.1 = k then some p.2 else sensorsLookup rest k := by
  by_cases hk : p.1 = k
  · rw [sensorsLookup, List.find?_cons_of_pos _ (by simpa using hk), if_pos hk]
    rfl
  · rw [sensorsLookup, List.find?_cons_of_neg _ (by simpa using hk), if_neg hk, sensorsLookup]

theorem sensorsContains_cons (p : SensorId × Sensor Metric) (rest : Sensors) (k : SensorId) :
    sensorsContains (p :: rest) k = (decide (p.1 = k) || sensorsContains rest k) := by
  rw [sensorsContains, List.any_cons, sensorsContains]

theorem sensorsUpdate_cons (p : SensorId × Sensor Metric) (rest : Sensors) (k : SensorId)
    (v : Sensor Metric) :
    sensorsUpdate (p :: rest) k v
      = (if p.1 = k then (k, v) else p) :: sensorsUpdate rest k v := rfl

theorem sensorsLookup_update_self {st : Sensors} {k : SensorId} (v : Sensor Metric)
    (h : sensorsContains st k = true) :
    sensorsLookup (sensorsUpdate st k v) k = some v := by
  induction st with
  | nil => simp [sensorsContains] at h
  | cons p rest ih =>
    rw [sensorsUpdate_cons, sensorsLookup_cons]
    by_cases hk : p.1 = k
    · simp [hk]
    · rw [if_neg hk, if_neg hk]
      rw [sensorsContains_cons] at h
      simp only [hk, decide_eq_true_eq, Bool.false_or, decide_eq_false_iff_not,
        not_false_iff] at h
      have h2 : sensorsContains rest k = true := by
        cases hb : sensorsContains rest k
        · rw [hb] at h; simp [hk] at h
        · rfl
      exact ih h2

theorem sensorsLookup_update_ne {st : Sensors} {k k' : SensorId} (v : Sensor Metric)
    (h : k' ≠ k) :
    sensorsLookup (sensorsUpdate st k v) k' = sensorsLookup st k' := by
  induction st with
  | nil => rfl
  | cons p rest ih =>
    rw [sensorsUpdate_cons, sensorsLookup_cons, sensorsLookup_cons]
    by_cases hk : p.1 = k
    · rw [if_pos hk]
      have hne : ¬ (k = k') := fun hh => h hh.symm
      rw [if_neg hne, if_neg (hk ▸ hne), ih]
    · rw [if_neg hk]
      by_cases hk' : p.1 = k'
      · rw [if_pos hk', if_pos hk']
      · rw [if_neg hk', if_neg hk', ih]

theorem sensorsLookup_of_not_contains {st : Sensors} {k : SensorId}
    (h : ¬ sensorsContains st k = true) : sensorsLookup st k = none := by
  induction st with
  | nil => rfl
  | cons p rest ih =>
    rw [sensorsContains_cons] at h
    simp only [Bool.or_eq_true, decide_eq_true_eq, not_or] at h
    rw [sensorsLookup_cons, if_neg h.1]
    exact ih (by simp [h.2])

theorem sensorsLookup_append (st₁ st₂ : Sensors) (k : SensorId)
    (h : sensorsLookup st₁ k = none) :
    sensorsLookup (st₁ ++ st₂) k = sensorsLookup st₂ k := by
  induction st₁ with
  | nil => rfl
  | cons p rest ih =>
    rw [sensorsLookup_cons] at h
    by_cases hk : p.1 = k
    · rw [if_pos hk] at h; exact absurd h (by simp)
    · rw [if_neg hk] at h
      rw [List.cons_append, sensorsLookup_cons, if_neg hk]
      exact ih h

theorem sensorsLookup_insert_self (st : Sensors) (k : SensorId) (v : Sensor Metric) :
    sensorsLookup (sensorsInsert st k v) k = some v := by
  rw [sensorsInsert]
  by_cases h : sensorsContains st k = true
  · rw [if_pos h]
    exact sensorsLookup_update_self v h
  · rw [if_neg h, sensorsLookup_append _ _ _ (sensorsLookup_of_not_contains h),
        sensorsLookup_cons]
    simp

theorem sensorsLookup_insert_ne {st : Sensors} {k k' : SensorId} (v : Sensor Metric)
    (h : k' ≠ k) :
    sensorsLookup (sensorsInsert st k v) k' = sensorsLookup st k' := by
  rw [sensorsInsert]
  by_cases hc : sensorsContains st k = true
  · rw [if_pos hc]
    exact sensorsLookup_update_ne v h
  · rw [if_neg hc]
    induction st with
    | nil =>
      rw [List.nil_append, sensorsLookup_nil, sensorsLookup_cons,
          if_neg (fun hh => h hh.symm), sensorsLookup_nil]
    | cons p rest ih =>
      rw [sensorsContains_cons] at hc
      simp only [Bool.or_eq_true, decide_eq_true_eq, not_or] at hc
      rw [List.cons_append, sensorsLookup_cons, sensorsLookup_cons]
      by_cases hk' : p.1 = k'
      · rw [if_pos hk', if_pos hk']
      · rw [if_neg hk', if_neg hk']
        exact ih (by simp [hc.2])

theorem sensorsContains_of_lookup {st : Sensors} {k : SensorId} {sen : Sensor Metric}
    (h : sensorsLookup st k = some sen) : sensorsContains st k = true := by
  cases hb : sensorsContains st k
  · rw [sensorsLookup_of_not_contains (by simp [hb])] at h
    exact absurd h (by simp)
  · rfl

theorem sensorsUpdate_keys (st : Sensors) (k : SensorId) (v : Sensor Metric) :
    (sensorsUpdate st k v).map Prod.fst = st.map Prod.fst := by
  induction st with
  | nil => rfl
  | cons p rest ih =>
    by_cases hk : p.1 = k
    · simpa [sensorsUpdate, hk] using ih
    · simpa [sensorsUpdate, hk] using ih

theorem sensorsUpdate_of_absent {st : Sensors} {k : SensorId} (v : Sensor Metric)
    (h : ∀ q ∈ st, ¬ (q.1 = k)) : sensorsUpdate st k v = st := by
  induction st with
  | nil => rfl
  | cons p rest ih =>
    have hp := h p (by simp)
    have htail : sensorsUpdate rest k v = rest :=
      ih (fun q hq => h q (List.mem_cons_of_mem _ hq))
    rw [sensorsUpdate, List.map_cons, if_neg hp]
    rw [sensorsUpdate] at htail
    rw [htail]

theorem sensorsUpdate_id {st : Sensors} {k : SensorId} {sen : Sensor Metric}
    (hnd : (st.map Prod.fst).Nodup) (h : sensorsLookup st k = some sen) :
    sensorsUpdate st k sen = st := by
  induction st with
  | nil => rfl
  | cons p rest ih =>
    simp only [List.map_cons, List.nodup_cons] at hnd
    obtain ⟨hp, hrest⟩ := hnd
    by_cases hk : p.1 = k
    · have hsen : sen = p.2 := by
        rw [sensorsLookup_cons, if_pos hk] at h
        exact (Option.some_inj.mp h).symm
      have hnone : ∀ q ∈ rest, ¬ (q.1 = k) := by
        intro q hq hcontra
        exact hp (hk ▸ hcontra ▸ List.mem_map_of_mem Prod.fst hq)
      have htail : sensorsUpdate rest k sen = rest := sensorsUpdate_of_absent sen hnone
      rw [sensorsUpdate, List.map_cons, if_pos hk]
      rw [sensorsUpdate] at htail
      rw [htail, hsen, ← hk]
    · have hlook : sensorsLookup rest k = some sen := by
        rw [sensorsLookup_cons, if_neg hk] at h
        exact h
      have htail : sensorsUpdate rest k sen = rest := ih hrest hlook
      rw [sensorsUpdate, List.map_cons, if_neg hk]
      rw [sensorsUpdate] at htail
      rw [htail]

/-! ### Snapshot idempotence -/

/-- The store is in sync with one snapshot entry: the sensor is cached
under its id, carries the entry's name, and every cached metric id is
among the entry's linked metric ids. -/
def SyncedWith (st : Sensors) (ls : Sensor LinkedMetric) : Prop :=
  ∃ sen : Sensor Metric,
    sensorsLookup st ls.sensorId = some sen ∧
    sen.name = ls.name ∧
    ∀ m ∈ sen.metrics, m.metricId ∈ ls.metrics.map LinkedMetric.metricId

theorem deleteMetricsFold_name (sid : SensorId) :
    ∀ (ds : List MetricId) (acc : Sensor Metric × List SensorStateEvent),
      (ds.foldl (deleteMetricsStep sid) acc).1.name = acc.1.name := by
  intro ds
  induction ds with
  | nil => intro acc; rfl
  | cons d ds ih =>
    intro acc
    rw [List.foldl_cons, ih]
    rfl

theorem deleteMetricsFold_events (sid : SensorId) :
    ∀ (ds : List MetricId) (acc : Sensor Metric × List SensorStateEvent),
      (ds.foldl (deleteMetricsStep sid) acc).2
        = acc.2 ++ ds.map (SensorStateEvent.MetricDeleted sid) := by
  intro ds
  induction ds with
  | nil => intro acc; simp
  | cons d ds ih =>
    intro acc
    rw [List.foldl_cons, ih]
    simp [deleteMetricsStep]

theorem deleteMetricsFold_metrics_sub (sid : SensorId) :
    ∀ (ds : List MetricId) (acc : Sensor Metric × List SensorStateEvent),
      ∀ m ∈ (ds.foldl (deleteMetricsStep sid) acc).1.metrics, m ∈ acc.1.metrics := by
  intro ds
  induction ds with
  | nil => intro acc m hm; exact hm
  | cons d ds ih =>
    intro acc m hm
    rw [List.foldl_cons] at hm
    have hm1 := ih (deleteMetricsStep sid acc d) m hm
    exact List.mem_of_mem_filter hm1

theorem applyLinkedSensor_none {st : Sensors} {ls : Sensor LinkedMetric}
    (h : sensorsLookup st ls.sensorId = none) :
    applyLinkedSensor st ls
      = (sensorsInsert st ls.sensorId
          { name := ls.name, connectorId := ls.connectorId,
            sensorId := ls.sensorId, metrics := [] },
         [SensorStateEvent.NewLinkedSensorLoaded ls]) := by
  rw [applyLinkedSensor, h]

theorem applyLinkedSensor_some {st : Sensors} {ls : Sensor LinkedMetric}
    {sen : Sensor Metric} (h : sensorsLookup st ls.sensorId = some sen) :
    applyLinkedSensor st ls
      = (sensorsUpdate st ls.sensorId
          (((sen.metrics.map Metric.metricId).dedup.filter
              (fun i => ¬ (ls.metrics.map LinkedMetric.metricId).contains i)).foldl
            (deleteMetricsStep ls.sensorId)
            ((if sen.name ≠ ls.name then { sen with name := ls.name } else sen), [])).1,
         (if sen.name ≠ ls.name then
            [SensorStateEvent.SensorNameChanged ls.sensorId ls.name]
          else []) ++
         (((sen.metrics.map Metric.metricId).dedup.filter
              (fun i => ¬ (ls.metrics.map LinkedMetric.metricId).contains i)).foldl
            (deleteMetricsStep ls.sensorId)
            ((if sen.name ≠ ls.name then { sen with name := ls.name } else sen), [])).2 ++
         [SensorStateEvent.ExistingLinkedSensorLoaded ls]) := by
  rw [applyLinkedSensor, h]

theorem applyLinkedSensor_synced (st : Sensors) (ls : Sensor LinkedMetric) :
    SyncedWith (applyLinkedSensor st ls).1 ls := by
  cases h : sensorsLookup st ls.sensorId with
  | none =>
    rw [applyLinkedSensor_none h]
    refine ⟨_, sensorsLookup_insert_self st ls.sensorId _, rfl, by simp⟩
  | some sen =>
    rw [applyLinkedSensor_some h]
    have hcont : sensorsContains st ls.sensorId = true := sensorsContains_of_lookup h
    refine ⟨_, sensorsLookup_update_self _ hcont, ?_, ?_⟩
    · rw [deleteMetricsFold_name]
      by_cases hname : sen.name = ls.name
      · rw [if_neg (not_not_intro hname)]
        exact hname
      · rw [if_pos hname]
    · intro m hm
      have hm1 := deleteMetricsFold_metrics_sub _ _ _ m hm
      have hm2 : m ∈ sen.metrics := by
        by_cases hname : sen.name = ls.name
        · rwa [if_neg (not_not_intro hname)] at hm1
        · rwa [if_pos hname] at hm1
      by_contra hnotin
      -- then its id is in the deleted set, so the fold removed it
      have hid : m.metricId ∈ (sen.metrics.map Metric.metricId).dedup :=
        List.mem_dedup.mpr (List.mem_map_of_mem Metric.metricId hm2)
      have hfilter : m.metricId ∈ (sen.metrics.map Metric.metricId).dedup.filter
          (fun i => ¬ (ls.metrics.map LinkedMetric.metricId).contains i) := by
        refine List.mem_filter.mpr ⟨hid, ?_⟩
        simp only [decide_eq_true_eq]
        intro hcontra
        exact hnotin (by simpa using hcontra)
      -- a metric that survives the fold has an id outside the folded list
      have hsurvive : ∀ (ds : List MetricId) (acc : Sensor Metric × List SensorStateEvent)
          (m' : Metric), m' ∈ (ds.foldl (deleteMetricsStep ls.sensorId) acc).1.metrics →
          m'.metricId ∉ ds := by
        intro ds
        induction ds with
        | nil => intro acc m' _ hmem; simp at hmem
        | cons d ds ih =>
          intro acc m' hmem hin
          rcases List.mem_cons.mp hin with hin | hin
          · rw [List.foldl_cons] at hmem
            have hm' := deleteMetricsFold_metrics_sub _ _ _ m' hmem
            have := List.of_mem_filter hm'
            simp only [decide_eq_true_eq] at this
            exact this hin.symm
          · rw [List.foldl_cons] at hmem
            exact ih (deleteMetricsStep ls.sensorId acc d) m' hmem hin
      exact hsurvive _ _ m hm hfilter

theorem applyLinkedSensor_lookup_ne {st : Sensors} {ls : Sensor LinkedMetric}
    {k : SensorId} (h : k ≠ ls.sensorId) :
    sensorsLookup (applyLinkedSensor st ls).1 k = sensorsLookup st k := by
  cases hl : sensorsLookup st ls.sensorId with
  | none =>
    rw [applyLinkedSensor_none hl]
    exact sensorsLookup_insert_ne _ h
  | some sen =>
    rw [applyLinkedSensor_some hl]
    exact sensorsLookup_update_ne _ h

theorem sensorsContains_false_of_lookup_none {st : Sensors} {k : SensorId}
    (h : sensorsLookup st k = none) : sensorsContains st k = false := by
  cases hb : sensorsContains st k
  · rfl
  · exfalso
    induction st with
    | nil => simp [sensorsContains] at hb
    | cons p rest ih =>
      rw [sensorsLookup_cons] at h
      rw [sensorsContains_cons] at hb
      by_cases hk : p.1 = k
      · rw [if_pos hk] at h; exact absurd h (by simp)
      · rw [if_neg hk] at h
        simp only [hk, decide_eq_true_eq, decide_eq_false_iff_not, not_false_iff,
          Bool.false_or] at hb
        exact ih h hb

theorem applyLinkedSensor_keys_nodup {st : Sensors} (ls : Sensor LinkedMetric)
    (hnd : (st.map Prod.fst).Nodup) :
    ((applyLinkedSensor st ls).1.map Prod.fst).Nodup := by
  cases hl : sensorsLookup st ls.sensorId with
  | none =>
    rw [applyLinkedSensor_none hl, sensorsInsert,
        sensorsContains_false_of_lookup_none hl]
    simp only [Bool.false_eq_true, if_neg, not_false_iff, List.map_append, List.map_cons,
      List.map_nil]
    rw [List.nodup_append]
    refine ⟨hnd, List.nodup_singleton _, ?_⟩
    intro a ha hab
    have hka : a = ls.sensorId := by simpa using hab
    obtain ⟨p, hp, hpa⟩ := List.mem_map.mp ha
    have hc : sensorsContains st ls.sensorId = true := by
      rw [sensorsContains, List.any_eq_true]
      exact ⟨p, hp, by simp [hpa.trans hka]⟩
    rw [sensorsContains_false_of_lookup_none hl] at hc
    exact absurd hc (by simp)
  | some sen =>
    rw [applyLinkedSensor_some hl, sensorsUpdate_keys]
    exact hnd

/-- On a store already in sync with the entry, one snapshot-entry
application leaves the store untouched and emits exactly the
unconditional `ExistingLinkedSensorLoaded` notification. -/
theorem applyLinkedSensor_of_synced {st : Sensors} {ls : Sensor LinkedMetric}
    (hnd : (st.map Prod.fst).Nodup) (hs : SyncedWith st ls) :
    applyLinkedSensor st ls = (st, [SensorStateEvent.ExistingLinkedSensorLoaded ls]) := by
  obtain ⟨sen, hlook, hname, hmet⟩ := hs
  rw [applyLinkedSensor_some hlook]
  have hds : (sen.metrics.map Metric.metricId).dedup.filter
      (fun i => ¬ (ls.metrics.map LinkedMetric.metricId).contains i) = [] := by
    rw [List.filter_eq_nil_iff]
    intro i hi
    simp only [decide_eq_true_eq, not_not]
    obtain ⟨m, hm, hmi⟩ := List.mem_map.mp (List.mem_dedup.mp hi)
    have hmem := hmet m hm
    rw [hmi] at hmem
    exact List.elem_iff.mpr hmem
  rw [hds, if_neg (not_not_intro hname), if_neg (not_not_intro hname)]
  rw [List.foldl_nil]
  rw [sensorsUpdate_id hnd hlook]
  simp

theorem eventSensorList_nil (st : Sensors) : eventSensorList st [] = (st, []) := rfl

theorem eventSensorList_fold_acc (rest : List (Sensor LinkedMetric)) :
    ∀ (st : Sensors) (evs : List SensorStateEvent),
      rest.foldl
        (fun acc ls =>
          ((applyLinkedSensor acc.1 ls).1, acc.2 ++ (applyLinkedSensor acc.1 ls).2))
        (st, evs)
      = ((eventSensorList st rest).1, evs ++ (eventSensorList st rest).2) := by
  induction rest with
  | nil => intro st evs; simp [eventSensorList]
  | cons ls rest ih =>
    intro st evs
    rw [eventSensorList, List.foldl_cons, List.foldl_cons]
    rw [ih, ih]
    simp

theorem eventSensorList_cons (st : Sensors) (ls : Sensor LinkedMetric)
    (rest : List (Sensor LinkedMetric)) :
    eventSensorList st (ls :: rest)
      = ((eventSensorList (applyLinkedSensor st ls).1 rest).1,
         (applyLinkedSensor st ls).2
           ++ (eventSensorList (applyLinkedSensor st ls).1 rest).2) := by
  rw [eventSensorList, List.foldl_cons, eventSensorList_fold_acc]
  simp

/-- Applying further snapshot entries for other sensor ids preserves the
sync of an entry (only the entry's own key is ever touched). -/
theorem eventSensorList_preserves_synced {ls : Sensor LinkedMetric} :
    ∀ (rest : List (Sensor LinkedMetric)) (st : Sensors),
      (∀ ls' ∈ rest, ls'.sensorId ≠ ls.sensorId) →
      SyncedWith st ls →
      SyncedWith (eventSensorList st rest).1 ls := by
  intro rest
  induction rest with
  | nil => intro st _ hs; exact hs
  | cons ls' rest ih =>
    intro st hne hs
    rw [eventSensorList_cons]
    refine ih _ (fun x hx => hne x (List.mem_cons_of_mem _ hx)) ?_
    obtain ⟨sen, hlook, hname, hmet⟩ := hs
    refine ⟨sen, ?_, hname, hmet⟩
    rw [applyLinkedSensor_lookup_ne (Ne.symm (hne ls' (by simp)))]
    exact hlook

theorem eventSensorList_keys_nodup :
    ∀ (snap : List (Sensor LinkedMetric)) (st : Sensors),
      (st.map Prod.fst).Nodup →
      ((eventSensorList st snap).1.map Prod.fst).Nodup := by
  intro snap
  induction snap with
  | nil => intro st hnd; exact hnd
  | cons ls rest ih =>
    intro st hnd
    rw [eventSensorList_cons]
    exact ih _ (applyLinkedSensor_keys_nodup ls hnd)

/-- After one full application of a snapshot with pairwise-distinct
sensor ids, the store is in sync with every entry of the snapshot. -/
theorem eventSensorList_synced_all :
    ∀ (snap : List (Sensor LinkedMetric)) (st : Sensors),
      (st.map Prod.fst).Nodup →
      (snap.map Sensor.sensorId).Nodup →
      ∀ ls ∈ snap, SyncedWith (eventSensorList st snap).1 ls := by
  intro snap
  induction snap with
  | nil => intro st _ _ ls hls; simp at hls
  | cons ls0 rest ih =>
    intro st hnd hsnap ls hls
    rw [eventSensorList_cons]
    simp only [List.map_cons, List.nodup_cons] at hsnap
    obtain ⟨hnotin, hrest⟩ := hsnap
    rcases List.mem_cons.mp hls with hls | hls
    · subst hls
      refine eventSensorList_preserves_synced rest _ ?_ (applyLinkedSensor_synced st ls)
      intro x hx hcontra
      exact hnotin (hcontra ▸ List.mem_map_of_mem Sensor.sensorId hx)
    · exact ih _ (applyLinkedSensor_keys_nodup ls0 hnd) hrest ls hls

/-- On a store in sync with every entry, re-applying the snapshot leaves
the store unchanged and emits exactly one `ExistingLinkedSensorLoaded`
per entry, in snapshot order. -/
theorem eventSensorList_of_synced :
    ∀ (snap : List (Sensor LinkedMetric)) (st : Sensors),
      (st.map Prod.fst).Nodup →
      (∀ ls ∈ snap, SyncedWith st ls) →
      eventSensorList st snap
        = (st, snap.map SensorStateEvent.ExistingLinkedSensorLoaded) := by
  intro snap
  induction snap with
  | nil => intro st _ _; rfl
  | cons ls rest ih =>
    intro st hnd hsync
    rw [eventSensorList_cons, applyLinkedSensor_of_synced hnd (hsync ls (by simp))]
    rw [ih st hnd (fun x hx => hsync x (List.mem_cons_of_mem _ hx))]
    simp

/-- C1 (amended): after a full-list snapshot with pairwise-distinct
sensor ids has been applied once to a StateStore with unique keys,
applying the exact same snapshot a second time leaves the store unchanged
and emits exactly one `ExistingLinkedSensorLoaded` (SensorRelinked)
notification per snapshot entry, in order — not zero events. -/
theorem snapshot_second_application (st : Sensors) (snap : List (Sensor LinkedMetric))
    (hnd : (st.map Prod.fst).Nodup) (hsnap : (snap.map Sensor.sensorId).Nodup) :
    eventSensorList (eventSensorList st snap).1 snap
      = ((eventSensorList st snap).1,
         snap.map SensorStateEvent.ExistingLinkedSensorLoaded) :=
  eventSensorList_of_synced snap _
    (eventSensorList_keys_nodup snap st hnd)
    (eventSensorList_synced_all snap st hnd hsnap)

def demoLinkedSensor : Sensor LinkedMetric :=
  { name := "Temp", sensorId := demoSensorId, metrics := [], connectorId := nilMqttId }

/-- C1 counterexample: the second application of a one-sensor snapshot to
the already-reconciled store emits one event — the unconditional
`ExistingLinkedSensorLoaded` — not zero. -/
theorem snapshot_second_application_counterexample :
    (eventSensorList (eventSensorList [] [demoLinkedSensor]).1 [demoLinkedSensor]).2
      ≠ [] := by
  have h : (eventSensorList (eventSensorList [] [demoLinkedSensor]).1
      [demoLinkedSensor]).2
      = [SensorStateEvent.ExistingLinkedSensorLoaded demoLinkedSensor] := rfl
  rw [h]
  simp

/-- Witness: the amended second-application statement at a concrete
one-sensor snapshot. -/
theorem snapshot_second_application_witness :
    eventSensorList (eventSensorList [] [demoLinkedSensor]).1 [demoLinkedSensor]
      = ((eventSensorList [] [demoLinkedSensor]).1,
         [SensorStateEvent.ExistingLinkedSensorLoaded demoLinkedSensor]) :=
  snapshot_second_application [] [demoLinkedSensor] (by simp) (by simp)

def demoMetricA : Metric :=
  .Custom "A" "11111111111111111111111111111111" "u" .Integer

def demoMetricB : Metric :=
  .Custom "B" "22222222222222222222222222222222" "u" .Integer

def demoMetricC : Metric :=
  .Custom "C" "33333333333333333333333333333333" "u" .Integer

/-- Witness: the metric-diff statement at concrete distinct metrics. -/
theorem snapshot_metric_diff_witness :
    (eventSensorList
        [(demoSensorId,
          { name := "S", sensorId := demoSensorId,
            metrics := [demoMetricA, demoMetricB, demoMetricC],
            connectorId := nilMqttId })]
        [{ name := "S", sensorId := demoSensorId,
           metrics := [{ link := "lA", metricId := demoMetricA.metricId },
                       { link := "lC", metricId := demoMetricC.metricId }],
           connectorId := nilMqttId }]).2.filter isMetricDeleted
      = [SensorStateEvent.MetricDeleted demoSensorId demoMetricB.metricId] ∧
    sensorsLookup
        (eventSensorList
          [(demoSensorId,
            { name := "S", sensorId := demoSensorId,
              metrics := [demoMetricA, demoMetricB, demoMetricC],
              connectorId := nilMqttId })]
          [{ name := "S", sensorId := demoSensorId,
             metrics := [{ link := "lA", metricId := demoMetricA.metricId },
                         { link := "lC", metricId := demoMetricC.metricId }],
             connectorId := nilMqttId }]).1 demoSensorId
      = some { name := "S", sensorId := demoSensorId,
               metrics := [demoMetricA, demoMetricC], connectorId := nilMqttId } :=
  snapshot_metric_diff demoSensorId "S" nilMqttId nilMqttId
    demoMetricA demoMetricB demoMetricC "lA" "lC"
    (by decide) (by decide) (by decide)

/-! ## Request/response correlator (src/client/mqtt.rs, `MqttActor::request`;
the same subscribe → publish → await → unsubscribe sequence appears in
`Handler<MqttRequest>` in src/client/mqtt/mqtt_client.rs) -/

structure MqttMessage where
  topic : String
  message : String
deriving DecidableEq, Repr

inductive TransportOp
  | subscribeMany (topics : List String)
  | publish (topic : String)
  | unsubscribeMany (topics : List String)
deriving DecidableEq, Repr

def TransportOp.isUnsubscribe : TransportOp → Bool
  | .unsubscribeMany _ => true
  | _ => false

/-- The transport's behaviour during one correlated call: whether each
transport operation succeeds, and what `stream.next().await` yields
(`none`: the stream ended, `some none`: an empty message slot,
`some (some m)`: a first inbound message). -/
structure TransportOracle where
  subscribeOk : Bool
  publishOk : Bool
  nextMessage : Option (Option MqttMessage)
  unsubscribeOk : Bool
deriving Repr

inductive RequestResult
  | ok (payload : String)
  | err (message : String)
deriving DecidableEq, Repr

/-- `MqttActor::request`: subscribe to the {response, error} pair, publish
to the action topic, await the first inbound message, unsubscribe from
both (each `?` early-returns the corresponding error), then resolve by a
comparison against the ERROR topic.  The second component is the trace of
transport operations issued. -/
def requestRun (o : TransportOracle) (message : MqttMessage)
    (responseTopic errorTopic : String) : RequestResult × List TransportOp :=
  let topics := [responseTopic, errorTopic]
  if ¬ o.subscribeOk then (.err "subscribe failed", [.subscribeMany topics])
  else if ¬ o.publishOk then
    (.err "publish failed", [.subscribeMany topics, .publish message.topic])
  else
    let trace := [TransportOp.subscribeMany topics, .publish message.topic,
                  .unsubscribeMany topics]
    if ¬ o.unsubscribeOk then (.err "unsubscribe failed", trace)
    else
      match o.nextMessage with
      | none => (.err "no payload", trace)
      | some none => (.err "no message", trace)
      | some (some m) =>
        if errorTopic = m.topic then (.err m.message, trace)
        else (.ok m.message, trace)

/-- C3 counterexample: with the subscribe succeeded but the publish
failing, the call completes (with the publish error) without ever
unsubscribing — the two subscriptions leak on this exit path. -/
theorem request_unsubscribe_counterexample :
    (requestRun ⟨true, false, none, true⟩ ⟨"sensor/create", "p"⟩ "sensor/inbox"
        "sensor/error/inbox").1 = .err "publish failed" ∧
    (requestRun ⟨true, false, none, true⟩ ⟨"sensor/create", "p"⟩ "sensor/inbox"
        "sensor/error/inbox").2.filter TransportOp.isUnsubscribe = [] := by
  refine ⟨rfl, rfl⟩

/-- C3 (amended): once the subscribe AND the publish have succeeded, the
correlator unsubscribes from both topics on every exit path — success
reply, error reply, empty stream, or a failing unsubscribe itself;
however, a publish failure after a successful subscribe exits without
unsubscribing. -/
theorem request_unsubscribes (o : TransportOracle) (m : MqttMessage)
    (rt et : String) (hs : o.subscribeOk = true) (hp : o.publishOk = true) :
    TransportOp.unsubscribeMany [rt, et] ∈ (requestRun o m rt et).2 := by
  rw [requestRun]
  simp only [hs, hp, not_true, if_neg, not_false_iff, Bool.not_true]
  cases hu : o.unsubscribeOk <;>
    rcases hm : o.nextMessage with _ | _ | m' <;>
      simp [hu, hm]
  split <;> simp

/-- Witness for the unsubscribe theorem at a concrete oracle. -/
theorem request_unsubscribes_witness :
    TransportOp.unsubscribeMany ["r", "e"]
      ∈ (requestRun ⟨true, true, none, true⟩ ⟨"t", "m"⟩ "r" "e").2 :=
  request_unsubscribes ⟨true, true, none, true⟩ ⟨"t", "m"⟩ "r" "e" rfl rfl

/-- C6 counterexample: a first inbound message on a topic equal to
NEITHER subscribed topic resolves the call successfully, while the claim
requires success exactly when the topic equals the success topic. -/
theorem request_result_counterexample :
    (requestRun ⟨true, true, some (some ⟨"other/topic", "body"⟩), true⟩
        ⟨"ping", "p"⟩ "ping/info/inbox" "ping/error/inbox").1
      = .ok "body" ∧
    ("other/topic" : String) ≠ "ping/info/inbox" := by
  refine ⟨rfl, by decide⟩

/-- C6 (amended): when a first inbound message arrives and the
unsubscribe succeeds, the call resolves successfully with the message
body iff the arrived topic DIFFERS from the error topic, and fails with
a RemoteError carrying the body iff it equals the error topic — the
success topic is never compared. -/
theorem request_result_by_topic (o : TransportOracle) (m inb : MqttMessage)
    (rt et : String) (hs : o.subscribeOk = true) (hp : o.publishOk = true)
    (hu : o.unsubscribeOk = true) (hm : o.nextMessage = some (some inb)) :
    ((requestRun o m rt et).1 = .ok inb.message ↔ et ≠ inb.topic) ∧
    ((requestRun o m rt et).1 = .err inb.message ↔ et = inb.topic) := by
  rw [requestRun]
  simp only [hs, hp, hu, hm, not_true, if_neg, not_false_iff, Bool.not_true]
  by_cases he : et = inb.topic
  · simp [he]
  · simp [he]

/-- Witness for the resolution theorem at a concrete error-topic reply. -/
theorem request_result_by_topic_witness :
    ((requestRun ⟨true, true, some (some ⟨"e", "b"⟩), true⟩ ⟨"t", "m"⟩ "r" "e").1
        = .ok "b" ↔ ("e" : String) ≠ "e") ∧
    ((requestRun ⟨true, true, some (some ⟨"e", "b"⟩), true⟩ ⟨"t", "m"⟩ "r" "e").1
        = .err "b" ↔ ("e" : String) = "e") :=
  request_result_by_topic ⟨true, true, some (some ⟨"e", "b"⟩), true⟩
    ⟨"t", "m"⟩ ⟨"e", "b"⟩ "r" "e" rfl rfl rfl rfl

end SensorVision
